import Mathlib

set_option maxRecDepth 4000

/-!
Shallow embedding of the ownership-ledger transfer engine
(`app/services/transfer_initiation_service.py`, `app/services/ownership_service.py`,
`app/services/validation_service.py`, `app/services/inheritance_handler.py`,
`app/schemas/ownership_schema.py`, `app/db/models.py`).

Percentages and money amounts are modelled as rationals; UUIDs and dates are
modelled as strings.  Database tables are lists of rows; the Redis cache is an
association list from keys to stored values.  Fallible code returns
`Except TransferError`; an `HTTPException(code, detail)` raised by the source is
`TransferError.http code detail`, and an uncaught Python exception (IndexError,
TypeError, KeyError, MultipleResultsFound, ...) is `TransferError.exc name`.
-/

deriving instance DecidableEq for Except

/-- Error outcomes of a service call: either a FastAPI `HTTPException` with a
status code and detail string, or an uncaught Python exception identified by
its class name. -/
inductive TransferError
  | http (code : Nat) (detail : String)
  | exc (name : String)
deriving DecidableEq, Repr

/-- Python float tolerance `1e-9` used by every percentage comparison in the
source, as a rational. -/
def perc_tolerance : ℚ := 1 / 1000000000

/-- Python `abs` on a rational. -/
def pyAbs (q : ℚ) : ℚ := if q < 0 then -q else q

/-- Python list indexing `xs[i]`: raises `IndexError` when out of range
(used by the debug `print` statements in both initiate services). -/
def pyListGet (xs : List α) (i : Nat) : Except TransferError α :=
  match xs.get? i with
  | some a => .ok a
  | none => .error (.exc "IndexError")

/-- SQLAlchemy `Result.scalar_one_or_none()`: `none` for no row, the row for
exactly one, and a raised `MultipleResultsFound` otherwise. -/
def scalar_one_or_none (rows : List α) : Except TransferError (Option α) :=
  match rows with
  | [] => .ok none
  | [a] => .ok (some a)
  | _ => .error (.exc "MultipleResultsFound")

/-- Python truthiness of a bound method object that was referenced without
being called (`result.scalar_one_or_none` with no parentheses): always true. -/
def truthy_uncalled_bound_method : Bool := true

/-- Python f-string interpolation of an `Optional` string id: `None` prints
as the literal string "None". -/
def pyStrOpt : Option String → String
  | some s => s
  | none => "None"

/-- Python dict read `d[k]` of an optional field: raises `KeyError` when the
key is absent from the stored record. -/
def pyDictGetStr : Option String → Except TransferError String
  | some s => .ok s
  | none => .error (.exc "KeyError")

/-- Insert-or-overwrite into a Python dict modelled as an association list:
an existing key keeps its position and gets the new value, a new key is
appended. -/
def dictInsert (d : List (String × ℚ)) (k : String) (v : ℚ) : List (String × ℚ) :=
  if d.any (fun p => p.1 == k) then d.map (fun p => if p.1 == k then (p.1, v) else p)
  else d ++ [(k, v)]

/-- Python dict built from a list of key/value pairs (a dict comprehension):
later duplicates overwrite earlier ones. -/
def dictOfPairs (ps : List (String × ℚ)) : List (String × ℚ) :=
  ps.foldl (fun d p => dictInsert d p.1 p.2) []

/-- Python `d[k] -= v`: raises `KeyError` when `k` is absent. -/
def dictSubtract (d : List (String × ℚ)) (k : String) (v : ℚ) :
    Except TransferError (List (String × ℚ)) :=
  if d.any (fun p => p.1 == k) then
    .ok (d.map (fun p => if p.1 == k then (p.1, p.2 - v) else p))
  else .error (.exc "KeyError")

/-- Sum of the values of a Python dict modelled as an association list. -/
def dictValuesSum (d : List (String × ℚ)) : ℚ := (d.map Prod.snd).sum

/-- Python set equality of two key collections
(`payload_current_owner_ids != set(db_ownerships.keys())`). -/
def sameKeySet (a b : List String) : Bool :=
  a.all (fun k => b.contains k) && b.all (fun k => a.contains k)

/-! ## Database rows (`app/db/models.py`) -/

/-- Row of the `units` table (fields relevant to the services). -/
structure UnitRow where
  unit_id : String
  unique_key : String
  building_name : String
deriving DecidableEq, Repr

/-- Row of the `owners` table (fields relevant to the services). -/
structure OwnerRow where
  owner_id : String
  owner_type : String
  full_name : String
  emirates_id : Option String
deriving DecidableEq, Repr

/-- Row of the `ownership_history` ledger table. -/
structure OwnershipHistoryRow where
  history_id : Nat
  unit_id : String
  owner_id : String
  ownership_start_date : String
  ownership_end_date : Option String
  ownership_percentage : ℚ
  is_current_owner : Bool
  purchase_price : Option ℚ
  purchase_currency : Option String
  transaction_type : Option String
  transfer_reason : Option String
deriving DecidableEq, Repr

/-- Row of the `ownership_transfers` table. -/
structure OwnershipTransferRow where
  transfer_id : Nat
  unit_id : String
  transfer_type : String
  transfer_date : String
  total_amount : ℚ
  transfer_currency : String
  legal_reason : String
  status : String
  initiated_by : String
deriving DecidableEq, Repr

/-- Row of the `transfer_documents` table. -/
structure TransferDocumentRow where
  document_id : Nat
  transfer_id : Nat
  document_type : String
  document_name : String
  file_path : String
  uploaded_by : Option String
  verification_status : String
deriving DecidableEq, Repr

/-- Row of the `audit_logs` table (the JSONB old/new snapshots are omitted;
no claim depends on their contents). -/
structure AuditLogRow where
  log_id : Nat
  table_name : String
  record_id : String
  action : String
  changed_by : String
  change_reason : String
  ip_address : String
  user_agent : String
deriving DecidableEq, Repr

/-- The durable store: one list per table. -/
structure DBState where
  units : List UnitRow
  owners : List OwnerRow
  ownership_history : List OwnershipHistoryRow
  ownership_transfers : List OwnershipTransferRow
  transfer_documents : List TransferDocumentRow
  audit_logs : List AuditLogRow
deriving DecidableEq, Repr

/-! ## Staging cache -/

/-- Parsed content of a staged cache record (the JSON written by
`transfer_initiation_service`).  `transfer_date` is optional because the
`ownership_service` variant builds its record without that key; reading the
missing key raises `KeyError` downstream. -/
structure CacheRecord where
  transfer_id : Nat
  unit_id : String
  transfer_type : String
  transfer_date : Option String
  total_amount : ℚ
  transfer_currency : String
  legal_reason : String
  status : String
  initiated_by : String
  sellers : List (String × ℚ)
  buyers : List (String × ℚ)
deriving DecidableEq, Repr

/-- A value stored in Redis: either a serialized record that parses back with
`json.loads`, or a string that fails to parse. -/
inductive CacheValue
  | json (r : CacheRecord)
  | malformed (s : String)
deriving DecidableEq, Repr

/-- The Redis cache as an association list. -/
def Cache := List (String × CacheValue)
deriving DecidableEq, Repr

/-- Redis `get`. -/
def cacheGet (c : Cache) (k : String) : Option CacheValue :=
  match (List.filter (fun kv => kv.1 == k) c) with
  | [] => none
  | kv :: _ => some kv.2

/-- Redis `set` with expiry (overwrite semantics; TTL expiry is modelled as
key absence). -/
def cacheSet (c : Cache) (k : String) (v : CacheValue) : Cache :=
  (k, v) :: List.filter (fun kv => !(kv.1 == k)) c

/-- Redis `delete`. -/
def cacheDelete (c : Cache) (k : String) : Cache :=
  List.filter (fun kv => !(kv.1 == k)) c

/-- Key layout `ownership_transfer:unit:<unit-id>` used by both services. -/
def ownership_transfer_cache_key (unit_id : String) : String :=
  "ownership_transfer:unit:" ++ unit_id

/-- Python `json.loads` of a cached string. -/
def json_loads : CacheValue → Except TransferError CacheRecord
  | .json r => .ok r
  | .malformed _ => .error (.http 500 "Failed to parse cached transfer data.")

/-! ## Request schemas (`app/schemas/ownership_schema.py`) -/

/-- `DocumentInfo` request schema. -/
structure DocumentInfo where
  document_type : String
  document_name : String
  file_path : String
  uploaded_by : Option String
  verification_status : String
deriving DecidableEq, Repr

/-- `NewOwnerInfo` request schema (buyer identity plus acquired percentage). -/
structure NewOwnerInfo where
  full_name : String
  emirates_id : String
  phone : String
  owner_type : String
  ownership_percentage : ℚ
deriving DecidableEq, Repr

/-- `CurrentOwnerInfo` request schema (a seller row). -/
structure CurrentOwnerInfo where
  owner_id : String
  ownership_percentage : ℚ
  transfer_percentage : ℚ
deriving DecidableEq, Repr

/-- `TransferRequest` request schema. -/
structure TransferRequest where
  unit_id : String
  transfer_type : String
  current_owners : List CurrentOwnerInfo
  new_owners : List NewOwnerInfo
  transfer_date : String
  purchase_price : ℚ
  legal_reason : String
  documents : List DocumentInfo
deriving DecidableEq, Repr

/-- `ValidationRequest` request schema.  In the source the `transfer_id`
annotation is the typo `open[UUID]`; the intended type is an optional id and
the field is never read by `transfer_validation`. -/
structure ValidationRequest where
  unit_id : String
  transfer_id : Option Nat
deriving DecidableEq, Repr

/-- Field bounds `gt=0, le=100` on `CurrentOwnerInfo` plus the
`check_transfer_is_not_more_than_current_ownership` model validator: the
transfer percentage is compared against the percentage DECLARED IN THE
REQUEST, not against the ledger. -/
def currentOwnerInfoValid (o : CurrentOwnerInfo) : Bool :=
  (0 < o.ownership_percentage && o.ownership_percentage ≤ 100) &&
  (0 < o.transfer_percentage && o.transfer_percentage ≤ 100) &&
  !(o.transfer_percentage > o.ownership_percentage)

/-- Field bounds `gt=0, le=100` on `NewOwnerInfo.ownership_percentage`. -/
def newOwnerInfoValid (o : NewOwnerInfo) : Bool :=
  0 < o.ownership_percentage && o.ownership_percentage ≤ 100

/-- `TransferRequest.check_percentages_balance`: total transferred equals
total acquired within `1e-9`. -/
def check_percentages_balance (p : TransferRequest) : Bool :=
  let total_transfer_percentage := (p.current_owners.map (·.transfer_percentage)).sum
  let total_new_owner_percentage := (p.new_owners.map (·.ownership_percentage)).sum
  !(pyAbs (total_transfer_percentage - total_new_owner_percentage) > perc_tolerance)

/-- A `TransferRequest` that pydantic accepts: every nested validator and the
balance check pass (plus the `purchase_price > 0` field bound). -/
def transferRequestValid (p : TransferRequest) : Bool :=
  p.current_owners.all currentOwnerInfoValid &&
  p.new_owners.all newOwnerInfoValid &&
  (0 < p.purchase_price : Bool) &&
  check_percentages_balance p

/-! ## Inheritance handler (`app/services/inheritance_handler.py`) -/

namespace InheritanceHandler

/-- Heir counts as returned by `calculate_islamic_distribution`; note the
key names `number_of_*`, while `handle_inheritance_transfer` later reads
`no_of_*`. -/
structure IslamicDistribution where
  number_of_wives : Nat
  number_of_daughters : Nat
  number_of_sons : Nat
deriving DecidableEq, Repr

/-- Body of `calculate_islamic_distribution`.  `heirs` at the call site is the
request dict mapping heir name to relationship, so `for heir in heirs`
iterates the KEY strings and `heir.get("name")` raises `AttributeError` on the
first one; only an empty dict completes the loop (with zero counts). -/
def calculate_islamic_distribution (heirs : List (String × String)) :
    Except TransferError IslamicDistribution :=
  match heirs with
  | [] => .ok ⟨0, 0, 0⟩
  | _ => .error (.exc "AttributeError")

/-- A Python coroutine object: the value of calling an `async def` function
without `await`.  None of the body runs. -/
structure PyCoroutine (α : Type) where
  thunk : Unit → α

/-- Subscripting a coroutine object (`coro[key]`) raises
`TypeError: 'coroutine' object is not subscriptable`. -/
def PyCoroutine.subscript (_c : PyCoroutine α) (_key : String) :
    Except TransferError Nat :=
  .error (.exc "TypeError")

/-- Share arithmetic of `handle_inheritance_transfer` lines 33-57, as a
function of the heir counts the code attempts to read and the deceased
percentage: wives collectively get one eighth split equally, then the residue
goes to the children, a son counting twice a daughter when both exist. -/
def inheritance_share_arithmetic (ownership_percentage : ℚ)
    (no_of_wives no_of_sons no_of_daughters : Nat) :
    ℚ × ℚ × ℚ :=
  let rest_shares : ℚ := 0
  let share_of_one_wife : ℚ := 0
  let daughter_share : ℚ := 0
  let son_share : ℚ := 0
  let (share_of_one_wife, rest_shares) :=
    if no_of_wives > 0 then
      let wives_share := ownership_percentage / 8
      (wives_share / (no_of_wives : ℚ), ownership_percentage - wives_share)
    else (share_of_one_wife, rest_shares)
  let rest_shares := if no_of_wives == 0 then ownership_percentage else rest_shares
  let (daughter_share, son_share) :=
    if no_of_daughters ≠ 0 && no_of_sons == 0 then
      (rest_shares / (no_of_daughters : ℚ), son_share)
    else if no_of_sons ≠ 0 && no_of_daughters == 0 then
      (daughter_share, rest_shares / (no_of_sons : ℚ))
    else if no_of_sons > 0 && no_of_daughters > 0 then
      let total_children_shares : ℚ := 2 * (no_of_sons : ℚ) + (no_of_daughters : ℚ)
      let one_child_share := rest_shares / total_children_shares
      (one_child_share, one_child_share * 2)
    else (daughter_share, son_share)
  (share_of_one_wife, son_share, daughter_share)

/-- `InheritanceHandler.handle_inheritance_transfer`.  Both
`self.validate_heirs(...)` and `self.calculate_islamic_distribution(...)` are
called without `await`: the first coroutine object is truthy so no error is
raised, and subscripting the second raises `TypeError` before any share is
computed; the rest of the body (including the final loop that matches sons
against the misspelling "sone" and overwrites one single `{name, share}`
dict) is unreachable. -/
def handle_inheritance_transfer (_unit_id _deceased_owner_id : String)
    (_ownership_percentage : ℚ) (heirs : List (String × String)) :
    Except TransferError (String × ℚ) := do
  let islamic_distribution : PyCoroutine (Except TransferError IslamicDistribution) :=
    ⟨fun _ => calculate_islamic_distribution heirs⟩
  let _no_of_wives ← islamic_distribution.subscript "no_of_wives"
  .error (.exc "unreachable")

end InheritanceHandler

/-! ## Shared queries -/

/-- `select(OwnershipTransfer).where(unit_id == u, status in {pending, in_progress})`. -/
def pendingOrInProgress (db : DBState) (u : String) : List OwnershipTransferRow :=
  db.ownership_transfers.filter
    (fun t => t.unit_id == u && (t.status == "pending" || t.status == "in_progress"))

/-- Current-interval rows of a unit as loaded by both initiate services:
`unit_id == u` and `ownership_end_date IS NULL`. -/
def currentLedgerRows (hist : List OwnershipHistoryRow) (u : String) :
    List OwnershipHistoryRow :=
  hist.filter (fun r => r.unit_id == u && r.ownership_end_date.isNone)

/-- Next value of an autoincrement integer primary key. -/
def nextId (ids : List Nat) : Nat := ids.foldl max 0 + 1

/-! ## `app/services/ownership_service.py` (`process_transfer` variant without
the in-flight-transfer conflict check, with hardcoded primary keys) -/

namespace OwnershipService

/-- `ownership_service.process_transfer`.  The debug `print` statements index
the loaded ledger rows at positions 0 and 1 before the emptiness check, the
buyer map is keyed directly by emirates id, primary keys are hardcoded
(`transfer_id=5`, `document_id=9`, `log_id=8`), and the final
`redis.set(cache_key, cache_record)` passes a raw dict, which raises inside
the try block and is swallowed, leaving the cache unchanged. -/
def process_transfer (payload : TransferRequest) (db : DBState) (cache : Cache) :
    Except TransferError (DBState × Cache × CacheRecord) := do
  let unit_opt ← scalar_one_or_none (db.units.filter (fun u => u.unit_id == payload.unit_id))
  let some _unit := unit_opt | throw (.http 404 "Unit not found")
  let current_ownership_records := currentLedgerRows db.ownership_history payload.unit_id
  let _ ← pyListGet current_ownership_records 0
  let _ ← pyListGet current_ownership_records 1
  if current_ownership_records.isEmpty then
    throw (.http 404 ("Current ownership for" ++ payload.unit_id ++ "  not found"))
  let db_ownerships := dictOfPairs
    (current_ownership_records.map (fun r => (r.owner_id, r.ownership_percentage)))
  if pyAbs (dictValuesSum db_ownerships - 100) > perc_tolerance then
    throw (.http 409 "Ownership percentages do not add up to 100%")
  if !sameKeySet (payload.current_owners.map (·.owner_id)) (db_ownerships.map Prod.fst) then
    throw (.http 400 "Provided current owners do not match database records.")
  let final_ownerships ← payload.current_owners.foldlM
    (fun d seller => dictSubtract d seller.owner_id seller.transfer_percentage) db_ownerships
  let buyer_ownerships := payload.new_owners.foldl
    (fun d buyer => dictInsert d buyer.emirates_id buyer.ownership_percentage) []
  let total_final_ownerships := dictValuesSum final_ownerships + dictValuesSum buyer_ownerships
  if pyAbs (total_final_ownerships - 100) > perc_tolerance then
    throw (.http 409 "Ownership percentages do not add up to 100%")
  let transfer_record : OwnershipTransferRow := {
    transfer_id := 5
    unit_id := payload.unit_id
    transfer_type := payload.transfer_type
    transfer_date := payload.transfer_date
    total_amount := payload.purchase_price
    transfer_currency := "AED"
    legal_reason := payload.legal_reason
    status := "pending"
    initiated_by := "system" }
  let db := { db with ownership_transfers := db.ownership_transfers ++ [transfer_record] }
  let db := payload.documents.foldl (fun db doc =>
    { db with transfer_documents := db.transfer_documents ++ [{
        document_id := 9
        transfer_id := transfer_record.transfer_id
        document_type := doc.document_type
        document_name := doc.document_name
        file_path := doc.file_path
        uploaded_by := doc.uploaded_by
        verification_status := doc.verification_status }] }) db
  let audit_log : AuditLogRow := {
    log_id := 8
    table_name := "ownership_transfers"
    record_id := toString transfer_record.transfer_id
    action := "INSERT"
    changed_by := "system"
    change_reason := "Ownership transfer initiated"
    ip_address := "127.0.0.1"
    user_agent := "system" }
  let db := { db with audit_logs := db.audit_logs ++ [audit_log] }
  let cache_record : CacheRecord := {
    transfer_id := transfer_record.transfer_id
    unit_id := payload.unit_id
    transfer_type := payload.transfer_type
    transfer_date := none
    total_amount := payload.purchase_price
    transfer_currency := "AED"
    legal_reason := payload.legal_reason
    status := "pending"
    initiated_by := "system"
    sellers := final_ownerships
    buyers := buyer_ownerships }
  .ok (db, cache, cache_record)

end OwnershipService

/-! ## `app/services/transfer_initiation_service.py` (the `process_transfer`
wired to the `/ownership/transfers/initiate` route) -/

namespace TransferInitiationService

/-- Buyer identity resolution, lines 100-107 of the source: look up
`Owner.owner_id` by emirates id and interpolate the result into an f-string,
so an absent owner yields the literal key "None"; no Owner row is created. -/
def resolve_buyer_key (db : DBState) (buyer : NewOwnerInfo) :
    Except TransferError String := do
  let ids := (db.owners.filter (fun o => o.emirates_id == some buyer.emirates_id)).map
    (·.owner_id)
  let buyer_owner_id ← scalar_one_or_none ids
  pure (pyStrOpt buyer_owner_id)

/-- `transfer_initiation_service.process_transfer`.  Line 58 of the source
reads `conflict_transfer = conflict_transfer.scalar_one_or_none` WITHOUT
calling the method, so the subsequent truthiness test sees a bound-method
object and the 409 branch is always taken; everything below it is dead code,
translated here for completeness. -/
def process_transfer (payload : TransferRequest) (db : DBState) (cache : Cache) :
    Except TransferError (DBState × Cache × CacheRecord) := do
  let _conflict_rows := pendingOrInProgress db payload.unit_id
  if truthy_uncalled_bound_method then
    throw (.http 409 "Transfer for this property is already in process")
  let unit_opt ← scalar_one_or_none (db.units.filter (fun u => u.unit_id == payload.unit_id))
  let some _unit := unit_opt | throw (.http 404 "Unit not found")
  let current_ownership_records := currentLedgerRows db.ownership_history payload.unit_id
  let _ ← pyListGet current_ownership_records 0
  let _ ← pyListGet current_ownership_records 1
  if current_ownership_records.isEmpty then
    throw (.http 404 ("Current ownership for" ++ payload.unit_id ++ "  not found"))
  let db_ownerships := dictOfPairs
    (current_ownership_records.map (fun r => (r.owner_id, r.ownership_percentage)))
  if pyAbs (dictValuesSum db_ownerships - 100) > perc_tolerance then
    throw (.http 409 "Ownership percentages do not add up to 100%")
  if !sameKeySet (payload.current_owners.map (·.owner_id)) (db_ownerships.map Prod.fst) then
    throw (.http 400 "Provided current owners do not match database records.")
  let final_ownerships ← payload.current_owners.foldlM
    (fun d seller => dictSubtract d seller.owner_id seller.transfer_percentage) db_ownerships
  let buyer_ownerships ← payload.new_owners.foldlM (fun d buyer => do
    let key ← resolve_buyer_key db buyer
    pure (dictInsert d key buyer.ownership_percentage)) []
  let total_final_ownerships := dictValuesSum final_ownerships + dictValuesSum buyer_ownerships
  if pyAbs (total_final_ownerships - 100) > perc_tolerance then
    throw (.http 409 "Ownership percentages do not add up to 100%")
  let transfer_record : OwnershipTransferRow := {
    transfer_id := nextId (db.ownership_transfers.map (·.transfer_id))
    unit_id := payload.unit_id
    transfer_type := payload.transfer_type
    transfer_date := payload.transfer_date
    total_amount := payload.purchase_price
    transfer_currency := "AED"
    legal_reason := payload.legal_reason
    status := "pending"
    initiated_by := "system" }
  let db := { db with ownership_transfers := db.ownership_transfers ++ [transfer_record] }
  let db := payload.documents.foldl (fun db doc =>
    { db with transfer_documents := db.transfer_documents ++ [{
        document_id := nextId (db.transfer_documents.map (·.document_id))
        transfer_id := transfer_record.transfer_id
        document_type := doc.document_type
        document_name := doc.document_name
        file_path := doc.file_path
        uploaded_by := doc.uploaded_by
        verification_status := doc.verification_status }] }) db
  let audit_log : AuditLogRow := {
    log_id := nextId (db.audit_logs.map (·.log_id))
    table_name := "ownership_transfers"
    record_id := toString transfer_record.transfer_id
    action := "INSERT"
    changed_by := "system"
    change_reason := "Ownership transfer initiated"
    ip_address := "127.0.0.1"
    user_agent := "system" }
  let db := { db with audit_logs := db.audit_logs ++ [audit_log] }
  let cache_record : CacheRecord := {
    transfer_id := transfer_record.transfer_id
    unit_id := payload.unit_id
    transfer_type := payload.transfer_type
    transfer_date := some payload.transfer_date
    total_amount := payload.purchase_price
    transfer_currency := "AED"
    legal_reason := payload.legal_reason
    status := "pending"
    initiated_by := "system"
    sellers := final_ownerships
    buyers := buyer_ownerships }
  let cache := cacheSet cache (ownership_transfer_cache_key payload.unit_id)
    (.json cache_record)
  .ok (db, cache, cache_record)

end TransferInitiationService

/-! ## `app/services/validation_service.py` (the Confirm step) -/

namespace ValidationService

/-- Placeholder external document verifier from the source: always succeeds. -/
def document_verfication (_doc : TransferDocumentRow) : Bool := true

/-- Update one document row (by primary key) in the documents table. -/
def setDocStatus (db : DBState) (docId : Nat) (st : String) : DBState :=
  { db with transfer_documents := db.transfer_documents.map fun d =>
      if d.document_id == docId then { d with verification_status := st } else d }

/-- Document loop of `transfer_validation`: verify every `pending` document
(marking it `verified` or raising 400), and fail immediately on a document
already marked `not verified`. -/
def verify_documents (db : DBState) (docs : List TransferDocumentRow) :
    Except TransferError DBState :=
  docs.foldlM (fun db doc =>
    if doc.verification_status == "pending" then
      if document_verfication doc then
        .ok (setDocStatus db doc.document_id "verified")
      else
        .error (.http 400 ("Document " ++ doc.document_name ++ " could not be verified."))
    else if doc.verification_status == "not verified" then
      .error (.http 400 ("Document " ++ doc.document_name ++
        " was previously marked as not verified."))
    else .ok db) db

/-- Predicate of the per-seller ledger query: rows of the unit for this owner
with `is_current_owner == True`. -/
def sellerRowPred (u s : String) (r : OwnershipHistoryRow) : Bool :=
  r.unit_id == u && r.owner_id == s && r.is_current_owner

/-- The per-seller ledger query result. -/
def sellerRows (hist : List OwnershipHistoryRow) (u s : String) :
    List OwnershipHistoryRow :=
  hist.filter (sellerRowPred u s)

/-- One iteration of the seller loop: look up the current interval of the
seller; a missing row is skipped with a printed warning; a positive remaining
percentage updates the row in place, otherwise the interval is closed with
the staged transfer date. -/
def apply_seller_hist (data : CacheRecord) (u : String)
    (hist : List OwnershipHistoryRow) (sp : String × ℚ) :
    Except TransferError (List OwnershipHistoryRow) := do
  let existing_ownership ← scalar_one_or_none (sellerRows hist u sp.1)
  match existing_ownership with
  | none => pure hist
  | some row =>
    if sp.2 > 0 then
      pure (hist.map (fun r => if r.history_id == row.history_id then
        { r with ownership_percentage := sp.2,
                 transfer_reason := some data.legal_reason } else r))
    else do
      let td ← pyDictGetStr data.transfer_date
      pure (hist.map (fun r => if r.history_id == row.history_id then
        { r with is_current_owner := false,
                 ownership_end_date := some td,
                 transfer_reason := some "Sold the property" } else r))

/-- The full seller loop over the staged `sellers` dict. -/
def apply_sellers_hist (data : CacheRecord) (u : String)
    (hist : List OwnershipHistoryRow) (sellers : List (String × ℚ)) :
    Except TransferError (List OwnershipHistoryRow) :=
  sellers.foldlM (apply_seller_hist data u) hist

/-- The buyer loop: insert a new current interval per staged buyer, starting
at the staged transfer date with the staged percentage. -/
def apply_buyers_hist (data : CacheRecord) (u : String)
    (hist : List OwnershipHistoryRow) : List OwnershipHistoryRow :=
  data.buyers.foldl (fun h bp => h ++ [{
    history_id := nextId (h.map (·.history_id))
    unit_id := u
    owner_id := bp.1
    ownership_start_date := pyStrOpt data.transfer_date
    ownership_end_date := none
    ownership_percentage := bp.2
    is_current_owner := true
    purchase_price := some data.total_amount
    purchase_currency := some data.transfer_currency
    transaction_type := some data.transfer_type
    transfer_reason := some data.legal_reason }]) hist

/-- Update the status of every transfer row with the given primary key. -/
def setTransferStatus (db : DBState) (tid : Nat) (st : String) : DBState :=
  { db with ownership_transfers := db.ownership_transfers.map fun t =>
      if t.transfer_id == tid then { t with status := st } else t }

/-- Uncommitted session effects of `transfer_validation`: the sequence of
statements inside `async with db.begin()`, with an error short-circuiting
before the commit. -/
def transfer_validation_raw (payload : ValidationRequest) (db : DBState)
    (cache : Cache) :
    Except TransferError (DBState × Cache × OwnershipTransferRow) :=
  match scalar_one_or_none (pendingOrInProgress db payload.unit_id) with
  | .error e => .error e
  | .ok none => .error (.http 404 "No pending or in progress transfer found for this unit")
  | .ok (some transfer) =>
    match verify_documents db
        (db.transfer_documents.filter (fun d => d.transfer_id == transfer.transfer_id)) with
    | .error e => .error e
    | .ok db1 =>
      match cacheGet cache (ownership_transfer_cache_key transfer.unit_id) with
      | none => .error (.http 404 "Transfer data not found in cache. Cannot complete validation.")
      | some cached_data_str =>
        match json_loads cached_data_str with
        | .error e => .error e
        | .ok data =>
          match apply_sellers_hist data transfer.unit_id db1.ownership_history data.sellers with
          | .error e => .error e
          | .ok hist2 =>
            let hist3 := apply_buyers_hist data transfer.unit_id hist2
            let db4 := setTransferStatus { db1 with ownership_history := hist3 }
              transfer.transfer_id "completed"
            .ok (db4, cacheDelete cache (ownership_transfer_cache_key transfer.unit_id),
              { transfer with status := "completed" })

/-- `transfer_validation` as observed by the caller.  The surrounding
`async with db.begin()` commits the session on normal exit and rolls every
session mutation back when an exception escapes; the only cache write, the
`redis.delete`, is the final statement of the block, so on every error path
the cache is also untouched. -/
def transfer_validation (payload : ValidationRequest) (db : DBState)
    (cache : Cache) :
    Except TransferError OwnershipTransferRow × DBState × Cache :=
  match transfer_validation_raw payload db cache with
  | .ok (db2, cache2, t) => (.ok t, db2, cache2)
  | .error e => (.error e, db, cache)

end ValidationService

/-! ## Ledger invariant (spec section 8): current-interval percentages of a
unit sum to 100 within `1e-9`, or the unit has zero current owners. -/

/-- Sum of the current-interval percentages of a unit. -/
def sumCur (hist : List OwnershipHistoryRow) (u : String) : ℚ :=
  ((currentLedgerRows hist u).map (·.ownership_percentage)).sum

/-- The per-unit ledger invariant. -/
def unitInvariant (hist : List OwnershipHistoryRow) (u : String) : Prop :=
  pyAbs (sumCur hist u - 100) ≤ perc_tolerance ∨ currentLedgerRows hist u = []

/-! ## Concrete fixtures -/

/-- A current interval row: owner A holds all of unit U1. -/
def rowA100 : OwnershipHistoryRow := {
  history_id := 1
  unit_id := "U1"
  owner_id := "A"
  ownership_start_date := "2020-01-01"
  ownership_end_date := none
  ownership_percentage := 100
  is_current_owner := true
  purchase_price := none
  purchase_currency := none
  transaction_type := none
  transfer_reason := none }

/-- A pending transfer row for unit U1. -/
def pendingT1 : OwnershipTransferRow := {
  transfer_id := 1
  unit_id := "U1"
  transfer_type := "purchase"
  transfer_date := "2026-01-01"
  total_amount := 500000
  transfer_currency := "AED"
  legal_reason := "sale"
  status := "pending"
  initiated_by := "system" }

/-- Unit row for U1. -/
def unitU1 : UnitRow := { unit_id := "U1", unique_key := "BLD-1", building_name := "B" }

/-- Validation request for unit U1. -/
def vreqU1 : ValidationRequest := { unit_id := "U1", transfer_id := none }

/-- State used against C1: A holds 100 percent of U1 (invariant holds), one
pending transfer, no documents. -/
def c1db : DBState := {
  units := [unitU1]
  owners := []
  ownership_history := [rowA100]
  ownership_transfers := [pendingT1]
  transfer_documents := []
  audit_logs := [] }

/-- Staged record that only halves the seller share and adds no buyer: sums
to 50, not 100; `transfer_validation` applies it without revalidating. -/
def c1data : CacheRecord := {
  transfer_id := 1
  unit_id := "U1"
  transfer_type := "purchase"
  transfer_date := some "2026-01-01"
  total_amount := 500000
  transfer_currency := "AED"
  legal_reason := "sale"
  status := "pending"
  initiated_by := "system"
  sellers := [("A", 50)]
  buyers := [] }

/-- Cache holding the ill-formed staged record for U1. -/
def c1cache : Cache := [(ownership_transfer_cache_key "U1", .json c1data)]

/-- Ledger rows for the C3 scenario: A holds 30, B holds 70 of unit U1. -/
def rowA30 : OwnershipHistoryRow :=
  { rowA100 with history_id := 11, ownership_percentage := 30 }

/-- Second current row: owner B holds 70 of U1. -/
def rowB70 : OwnershipHistoryRow :=
  { rowA100 with history_id := 12, owner_id := "B", ownership_percentage := 70 }

/-- State for C3: ledger distribution A:30, B:70, no in-flight transfer. -/
def c3db : DBState := {
  units := [unitU1]
  owners := []
  ownership_history := [rowA30, rowB70]
  ownership_transfers := []
  transfer_documents := []
  audit_logs := [] }

/-- Request for C3: seller A declares 80 percent ownership (the ledger says
30) and transfers 50; seller B declares 20 and transfers 10; buyer C acquires
60.  Every schema check passes. -/
def c3payload : TransferRequest := {
  unit_id := "U1"
  transfer_type := "purchase"
  current_owners := [
    { owner_id := "A", ownership_percentage := 80, transfer_percentage := 50 },
    { owner_id := "B", ownership_percentage := 20, transfer_percentage := 10 }]
  new_owners := [{ full_name := "C", emirates_id := "784-1990-1234567-1",
                   phone := "050", owner_type := "individual",
                   ownership_percentage := 60 }]
  transfer_date := "2026-01-01"
  purchase_price := 100
  legal_reason := "sale"
  documents := [] }

/-- Extract the payload of a successful call. -/
def getOk : Except TransferError α → Option α
  | .ok a => some a
  | .error _ => none

/-! ## Further fixtures -/

/-- Request that sells 40 of the 100 held by A to new owner B. -/
def c2payload : TransferRequest := {
  unit_id := "U1"
  transfer_type := "purchase"
  current_owners := [
    { owner_id := "A", ownership_percentage := 100, transfer_percentage := 40 }]
  new_owners := [{ full_name := "B", emirates_id := "784-1990-1234567-1",
                   phone := "050", owner_type := "individual",
                   ownership_percentage := 40 }]
  transfer_date := "2026-01-01"
  purchase_price := 100
  legal_reason := "sale"
  documents := [] }

/-- State with a fully valid single-owner ledger and NO in-flight transfer. -/
def c2db : DBState := { c1db with ownership_transfers := [] }

/-- State whose unit exists but has no current ownership rows at all. -/
def c8db : DBState := { c2db with ownership_history := [] }

/-- An owner row matching the fixture buyer emirates id. -/
def ownerB1 : OwnerRow := {
  owner_id := "B1"
  owner_type := "individual"
  full_name := "B"
  emirates_id := some "784-1990-1234567-1" }

/-- The fixture buyer used for identity resolution. -/
def c6buyer : NewOwnerInfo := {
  full_name := "B"
  emirates_id := "784-1990-1234567-1"
  phone := "050"
  owner_type := "individual"
  ownership_percentage := 40 }

/-- State whose unit U1 carries TWO current rows for seller A, so the
per-seller ledger lookup inside the apply step raises
`MultipleResultsFound` after all read-only checks have passed. -/
def c7db : DBState := { c1db with ownership_history :=
  [rowA100, { rowA100 with history_id := 2 }] }

/-- Staged record for C10: real seller A keeps 50, ghost seller G (who has no
current ledger row) is listed with 20, buyer B takes 30. -/
def c10data : CacheRecord := { c1data with
  sellers := [("A", 50), ("G", 20)]
  buyers := [("B", 30)] }

/-- Cache holding the C10 staged record for U1. -/
def c10cache : Cache := [(ownership_transfer_cache_key "U1", .json c10data)]

/-- A ledger whose `is_current_owner` flag agrees with the absence of an end
date (the two notions of "current" used by Initiate and Confirm coincide). -/
def coherent (hist : List OwnershipHistoryRow) : Prop :=
  ∀ r ∈ hist, r.is_current_owner = true ↔ r.ownership_end_date = none

/-- Primary keys of the ledger rows are distinct. -/
def idsNodup (hist : List OwnershipHistoryRow) : Prop :=
  (hist.map (·.history_id)).Nodup

/-- Total current percentage a single owner holds on a unit (the sum over
the per-seller lookup result). -/
def sellerPct (hist : List OwnershipHistoryRow) (u s : String) : ℚ :=
  ((ValidationService.sellerRows hist u s).map (·.ownership_percentage)).sum

/-- Well-formed staged record for the C1 witness: seller A keeps 60, buyer B
acquires 40; remainders plus buyer shares sum to 100. -/
def c1wfdata : CacheRecord := { c1data with
  sellers := [("A", 60)]
  buyers := [("B", 40)] }

/-- Cache holding the well-formed staged record for U1. -/
def c1wfcache : Cache := [(ownership_transfer_cache_key "U1", .json c1wfdata)]

/-- The broken conflict check fires on every input: the uncalled bound method
is truthy, so `process_transfer` raises 409 before reading any state. -/
theorem ti_always_conflict (p : TransferRequest) (db : DBState) (c : Cache) :
    TransferInitiationService.process_transfer p db c =
      .error (.http 409 "Transfer for this property is already in process") := rfl

/-! ## Claim C2 -/

/-- C2: Initiate is claimed to fail with Conflict IF AND ONLY IF a pending or
in-progress Transfer exists for the unit.  The code raises 409 even on a
state with no in-flight transfer at all, because line 58 references
`scalar_one_or_none` without calling it and the bound method is always
truthy.  Here `c2db` has an empty `ownership_transfers` table and an
otherwise fully valid request, yet the call returns the Conflict error. -/
theorem c2_conflict_check_theorem :
    pendingOrInProgress c2db "U1" = [] ∧
    TransferInitiationService.process_transfer c2payload c2db [] =
      .error (.http 409 "Transfer for this property is already in process") :=
  ⟨by decide, by decide⟩

/-! ## Claim C5 -/

/-- C5: the inheritance distributor is claimed to return a per-heir share
mapping (sons 16 each, daughter 8 for 2 sons, 1 daughter, 0 wives on P=40).
The code calls `calculate_islamic_distribution` without `await` and
subscripts the coroutine object, raising `TypeError` on every input, so no
mapping is ever produced.  The share arithmetic of lines 33-57, taken by
itself, does implement the claimed rule: on (P=40, 0 wives, 2 sons,
1 daughter) it yields son 16 and daughter 8, and on (P=100, 1 wife, 1 son)
it yields wife 12.5 and son 87.5. -/
theorem c5_inheritance_theorem :
    InheritanceHandler.handle_inheritance_transfer "U1" "D" 40
      [("s1", "son"), ("s2", "son"), ("d1", "daughter")] =
      .error (.exc "TypeError") ∧
    InheritanceHandler.inheritance_share_arithmetic 40 0 2 1 = (0, 16, 8) ∧
    InheritanceHandler.inheritance_share_arithmetic 100 1 1 0 = (25/2, 175/2, 0) :=
  ⟨rfl, by with_unfolding_all decide, by with_unfolding_all decide⟩

/-! ## Claim C6 -/

/-- C6: during Initiate each buyer is claimed to be resolved to an existing
owner by emirates id, WITH A NEW OWNER ROW CREATED WHEN ABSENT.  The
resolution code (lines 100-107) only queries; when no owner matches, the
f-string interpolation of `None` produces the literal dict key "None" and no
Owner row is ever inserted.  When an owner does match, its id is used. -/
theorem c6_buyer_resolution_theorem :
    TransferInitiationService.resolve_buyer_key { c2db with owners := [] } c6buyer =
      .ok "None" ∧
    TransferInitiationService.resolve_buyer_key { c2db with owners := [ownerB1] } c6buyer =
      .ok "B1" :=
  ⟨by decide, by decide⟩

/-! ## Claim C8 -/

/-- C8: Initiate on an existing unit with zero current ownership rows is
claimed to fail with NotFound.  In the wired service the broken conflict
check raises 409 first; and even the `ownership_service` variant without that
check raises `IndexError` from the debug print that reads row 0 before the
emptiness test, so the 404 branch is unreachable for an empty ledger. -/
theorem c8_empty_ledger_theorem :
    currentLedgerRows c8db.ownership_history "U1" = [] ∧
    TransferInitiationService.process_transfer c2payload c8db [] =
      .error (.http 409 "Transfer for this property is already in process") ∧
    OwnershipService.process_transfer c2payload c8db [] =
      .error (.exc "IndexError") :=
  ⟨by decide, by decide, by decide⟩

/-! ## Claim C9 -/

/-- C9 counterexample: on a unit with exactly one current ownership row the
claim says Initiate raises an unhandled IndexError.  The wired
`transfer_initiation_service.process_transfer` instead raises the 409
Conflict from the broken in-flight check before the indexing is reached. -/
theorem c9_counterexample :
    (currentLedgerRows c2db.ownership_history "U1").length = 1 ∧
    TransferInitiationService.process_transfer c2payload c2db [] =
      .error (.http 409 "Transfer for this property is already in process") ∧
    TransferInitiationService.process_transfer c2payload c2db [] ≠
      .error (.exc "IndexError") :=
  ⟨by decide, by decide, by decide⟩

/-- C9 amended: the unguarded positional indexing in the debug prints raises
`IndexError` whenever the ledger read is reached with fewer than two current
rows, as in `ownership_service.process_transfer` (which has no conflict
check), before any validation branch runs; in the API-wired
`transfer_initiation_service` the broken conflict check raises Conflict
unconditionally first.  Either way Initiate never completes successfully on
a unit with exactly one current owner. -/
theorem c9_amended_theorem :
    (∀ (p : TransferRequest) (db : DBState) (c : Cache) (u0 : UnitRow),
      db.units.filter (fun u => u.unit_id == p.unit_id) = [u0] →
      (currentLedgerRows db.ownership_history p.unit_id).length < 2 →
      OwnershipService.process_transfer p db c = .error (.exc "IndexError")) ∧
    (∀ (p : TransferRequest) (db : DBState) (c : Cache),
      ∃ e, TransferInitiationService.process_transfer p db c = .error e) := by
  constructor
  · intro p db c u0 hu hlen
    unfold OwnershipService.process_transfer
    rw [hu]
    cases h2 : currentLedgerRows db.ownership_history p.unit_id with
    | nil => rfl
    | cons r t =>
      cases t with
      | nil => rfl
      | cons r2 t2 => rw [h2] at hlen; simp at hlen; omega
  · intro p db c
    exact ⟨_, ti_always_conflict p db c⟩

/-- C9 witness: the amended theorem applied to the concrete single-owner
state, one current row for U1, discharging both hypotheses. -/
theorem c9_witness :
    OwnershipService.process_transfer c2payload c2db [] =
      .error (.exc "IndexError") :=
  c9_amended_theorem.1 c2payload c2db [] unitU1 (by decide) (by decide)

/-! ## Claim C3 -/

/-- C3 counterexample: the claim says `transfer% ≤ D[owner]` (the LEDGER
percentage) is enforced before the share computation.  Request `c3payload`
declares 80 for seller A whose ledger share is 30 and transfers 50: every
schema check passes (the validator compares against the declared figure
only), and the validation-and-share-computation pipeline accepts the request,
computing a NEGATIVE remaining share of -20 for A and persisting a transfer
row (shown on the `ownership_service` variant, the only one that can reach
persistence; the API-wired variant rejects every request with the
unconditional 409, also not the claimed validation error). -/
theorem c3_counterexample :
    transferRequestValid c3payload = true ∧
    (currentLedgerRows c3db.ownership_history "U1").map
      (fun r => (r.owner_id, r.ownership_percentage)) = [("A", 30), ("B", 70)] ∧
    (getOk (OwnershipService.process_transfer c3payload c3db [])).map
      (fun r => r.2.2.sellers) = some [("A", -20), ("B", 60)] ∧
    (getOk (OwnershipService.process_transfer c3payload c3db [])).map
      (fun r => r.1.ownership_transfers.map (·.transfer_id)) = some [5] :=
  ⟨by with_unfolding_all decide, by decide,
   by with_unfolding_all decide, by with_unfolding_all decide⟩

/-- C3 amended: the only per-seller percentage bound enforced before the
share computation is the schema check against the percentage DECLARED IN THE
REQUEST (`transfer_percentage ≤ ownership_percentage` of the same
`CurrentOwnerInfo`); nothing compares the transfer percentage with the
ledger distribution. -/
theorem c3_amended_theorem (p : TransferRequest)
    (hv : transferRequestValid p = true) :
    ∀ o ∈ p.current_owners, o.transfer_percentage ≤ o.ownership_percentage := by
  intro o ho
  have h1 : p.current_owners.all currentOwnerInfoValid = true := by
    simp [transferRequestValid, Bool.and_eq_true] at hv
    exact (List.all_eq_true).2 fun x hx => by
      have := hv.1.1.1 x hx
      simpa using this
  have h2 := (List.all_eq_true).1 h1 o ho
  simp [currentOwnerInfoValid, Bool.and_eq_true, decide_eq_true_eq] at h2
  exact h2.2

/-- C3 witness: the amended theorem applied to the concrete request
`c3payload`, discharging the validity hypothesis, at its first seller. -/
theorem c3_witness :
    ({ owner_id := "A", ownership_percentage := 80, transfer_percentage := 50 } :
      CurrentOwnerInfo).transfer_percentage ≤
    ({ owner_id := "A", ownership_percentage := 80, transfer_percentage := 50 } :
      CurrentOwnerInfo).ownership_percentage :=
  c3_amended_theorem c3payload (by with_unfolding_all decide)
    { owner_id := "A", ownership_percentage := 80, transfer_percentage := 50 }
    (by decide)

/-! ## Lemmas about the Confirm step -/

/-- Inversion of a successful unique-row query. -/
theorem scalar_ok_some {α : Type} {l : List α} {a : α}
    (h : scalar_one_or_none l = .ok (some a)) : l = [a] := by
  match l with
  | [] => simp [scalar_one_or_none] at h
  | [x] => simp [scalar_one_or_none] at h; simp [h]
  | x :: y :: t => simp [scalar_one_or_none] at h

/-- Deleting a key removes it from the cache. -/
theorem cacheGet_cacheDelete (c : Cache) (k : String) :
    cacheGet (cacheDelete c k) k = none := by
  unfold cacheGet cacheDelete
  rw [List.filter_filter]
  have h : (fun (kv : String × CacheValue) => kv.1 == k && !(kv.1 == k)) =
      fun _ => false := by
    funext kv; cases hkv : kv.1 == k <;> simp [hkv]
  rw [h, List.filter_false]

/-- `verify_documents` touches only the documents table. -/
theorem verify_documents_tables {docs : List TransferDocumentRow} :
    ∀ (db db1 : DBState), ValidationService.verify_documents db docs = .ok db1 →
    db1.units = db.units ∧ db1.owners = db.owners ∧
    db1.ownership_history = db.ownership_history ∧
    db1.ownership_transfers = db.ownership_transfers := by
  induction docs with
  | nil => intro db db1 h; cases h; exact ⟨rfl, rfl, rfl, rfl⟩
  | cons d t ih =>
    intro db db1 h
    unfold ValidationService.verify_documents at h
    rw [List.foldlM_cons] at h
    by_cases h1 : d.verification_status == "pending"
    · simp only [h1, if_pos, ValidationService.document_verfication, if_true] at h
      have h2 := ih (ValidationService.setDocStatus db d.document_id "verified") db1 h
      simpa [ValidationService.setDocStatus] using h2
    · by_cases h2 : d.verification_status == "not verified"
      · simp [h1, h2, Bind.bind, Except.bind] at h
      · simp only [h1, h2, if_neg, Bool.false_eq_true, if_false] at h
        exact ih db db1 h

/-- `verify_documents` succeeds when no document was previously rejected
(the placeholder verifier accepts every pending document). -/
theorem verify_documents_ok {docs : List TransferDocumentRow} :
    ∀ (db : DBState), (∀ d ∈ docs, d.verification_status ≠ "not verified") →
    ∃ db1, ValidationService.verify_documents db docs = .ok db1 := by
  induction docs with
  | nil => intro db _; exact ⟨db, rfl⟩
  | cons d t ih =>
    intro db hd
    unfold ValidationService.verify_documents
    rw [List.foldlM_cons]
    by_cases h1 : d.verification_status == "pending"
    · obtain ⟨db1, hdb1⟩ := ih (ValidationService.setDocStatus db d.document_id "verified")
        (fun x hx => hd x (List.mem_cons_of_mem d hx))
      refine ⟨db1, ?_⟩
      simpa [h1, ValidationService.document_verfication,
        ValidationService.verify_documents] using hdb1
    · have h2 : ¬ (d.verification_status == "not verified") := by
        have := hd d (List.mem_cons_self d t)
        simpa using this
      obtain ⟨db1, hdb1⟩ := ih db (fun x hx => hd x (List.mem_cons_of_mem d hx))
      refine ⟨db1, ?_⟩
      simpa [h1, h2, ValidationService.verify_documents] using hdb1

/-- Inversion of a successful Confirm: the shape of the committed state. -/
theorem transfer_validation_raw_ok {p : ValidationRequest} {db db2 : DBState}
    {c c2 : Cache} {t : OwnershipTransferRow}
    (h : ValidationService.transfer_validation_raw p db c = .ok (db2, c2, t)) :
    ∃ t0 db1 cv data hist2,
      scalar_one_or_none (pendingOrInProgress db p.unit_id) = .ok (some t0) ∧
      ValidationService.verify_documents db
        (db.transfer_documents.filter (fun d => d.transfer_id == t0.transfer_id)) = .ok db1 ∧
      cacheGet c (ownership_transfer_cache_key t0.unit_id) = some cv ∧
      json_loads cv = .ok data ∧
      ValidationService.apply_sellers_hist data t0.unit_id db1.ownership_history
        data.sellers = .ok hist2 ∧
      db2 = ValidationService.setTransferStatus
        { db1 with ownership_history :=
            ValidationService.apply_buyers_hist data t0.unit_id hist2 }
        t0.transfer_id "completed" ∧
      c2 = cacheDelete c (ownership_transfer_cache_key t0.unit_id) ∧
      t = { t0 with status := "completed" } := by
  unfold ValidationService.transfer_validation_raw at h
  split at h
  · exact absurd h (by simp)
  · exact absurd h (by simp)
  · rename_i t0 _
    split at h
    · exact absurd h (by simp)
    · rename_i db1 hdb1
      split at h
      · exact absurd h (by simp)
      · rename_i cv hcv
        split at h
        · exact absurd h (by simp)
        · rename_i data hdata
          split at h
          · exact absurd h (by simp)
          · rename_i hist2 hhist2
            simp only [Except.ok.injEq, Prod.mk.injEq] at h
            exact ⟨t0, db1, cv, data, hist2, by assumption, hdb1, hcv, hdata, hhist2,
              h.1.symm, h.2.1.symm, h.2.2.symm⟩

/-- After the unique in-flight transfer is marked completed, the unit has no
pending or in-progress transfer row left. -/
theorem filter_complete_nil (l : List OwnershipTransferRow) (u : String)
    (t0 : OwnershipTransferRow)
    (h : l.filter (fun t => t.unit_id == u &&
        (t.status == "pending" || t.status == "in_progress")) = [t0]) :
    (l.map (fun tr => if tr.transfer_id == t0.transfer_id then
        { tr with status := "completed" } else tr)).filter
      (fun t => t.unit_id == u &&
        (t.status == "pending" || t.status == "in_progress")) = [] := by
  rw [List.filter_eq_nil_iff]
  intro x hx
  obtain ⟨y, hy, rfl⟩ := List.mem_map.1 hx
  by_cases hid : y.transfer_id == t0.transfer_id
  · simp [hid]
  · simp only [hid, if_neg, Bool.false_eq_true, if_false]
    intro hpred
    have hyt : y ∈ [t0] := h ▸ List.mem_filter.2 ⟨hy, hpred⟩
    have : y = t0 := by simpa using hyt
    subst this
    simp at hid

/-! ## Claim C4 -/

/-- C4: Confirm against a missing staged cache entry fails with NotFound and
mutates nothing: (first conjunct) when the in-flight transfer is found and no
document was previously rejected but the cache has no entry for the unit, the
call returns the 404 cache-miss error with the database and cache unchanged;
(second conjunct) after any successful Confirm, an immediately repeated
Confirm returns 404 (the completed transfer is no longer pending, so no
in-flight transfer is found) and again leaves the state unchanged. -/
theorem c4_confirm_theorem :
    (∀ (p : ValidationRequest) (db : DBState) (c : Cache) (t : OwnershipTransferRow),
      scalar_one_or_none (pendingOrInProgress db p.unit_id) = .ok (some t) →
      (∀ d ∈ db.transfer_documents.filter (fun d => d.transfer_id == t.transfer_id),
        d.verification_status ≠ "not verified") →
      cacheGet c (ownership_transfer_cache_key t.unit_id) = none →
      ValidationService.transfer_validation p db c =
        (.error (.http 404 "Transfer data not found in cache. Cannot complete validation."),
          db, c)) ∧
    (∀ (p : ValidationRequest) (db db2 : DBState) (c c2 : Cache)
        (t : OwnershipTransferRow),
      ValidationService.transfer_validation p db c = (.ok t, db2, c2) →
      ValidationService.transfer_validation p db2 c2 =
        (.error (.http 404 "No pending or in progress transfer found for this unit"),
          db2, c2)) := by
  constructor
  · intro p db c t hscal hdocs hcache
    obtain ⟨db1, hdb1⟩ := verify_documents_ok db hdocs
    have hraw : ValidationService.transfer_validation_raw p db c =
        .error (.http 404 "Transfer data not found in cache. Cannot complete validation.") := by
      unfold ValidationService.transfer_validation_raw
      simp only [hscal, hdb1, hcache]
    unfold ValidationService.transfer_validation
    rw [hraw]
  · intro p db db2 c c2 t h
    unfold ValidationService.transfer_validation at h
    cases hr : ValidationService.transfer_validation_raw p db c with
    | error e => rw [hr] at h; simp at h
    | ok x =>
      obtain ⟨x1, x2, x3⟩ := x
      rw [hr] at h
      simp only [Prod.mk.injEq, Except.ok.injEq] at h
      obtain ⟨ht, hdb2, hc2⟩ := h
      have hr2 : ValidationService.transfer_validation_raw p db c = .ok (db2, c2, t) := by
        rw [hr, ht, hdb2, hc2]
      obtain ⟨t0, db1, cv, data, hist2, hscal, hverify, hcv, hdata, hsell,
        hdb2eq, hc2eq, hteq⟩ := transfer_validation_raw_ok hr2
      have htrans : db1.ownership_transfers = db.ownership_transfers :=
        (verify_documents_tables _ _ hverify).2.2.2
      have hpend : pendingOrInProgress db2 p.unit_id = [] := by
        rw [hdb2eq]
        unfold pendingOrInProgress ValidationService.setTransferStatus
        dsimp only
        rw [htrans]
        exact filter_complete_nil db.ownership_transfers p.unit_id t0
          (scalar_ok_some hscal)
      have hraw2 : ValidationService.transfer_validation_raw p db2 c2 =
          .error (.http 404 "No pending or in progress transfer found for this unit") := by
        unfold ValidationService.transfer_validation_raw
        rw [hpend]
        rfl
      unfold ValidationService.transfer_validation
      rw [hraw2]

/-- C4 witness: both conjuncts applied at the concrete single-owner state;
the first with an empty cache, the second right after the successful Confirm
of `c1cache`. -/
theorem c4_witness :
    ValidationService.transfer_validation vreqU1 c1db [] =
      (.error (.http 404 "Transfer data not found in cache. Cannot complete validation."),
        c1db, ([] : Cache)) ∧
    ValidationService.transfer_validation vreqU1
        (ValidationService.transfer_validation vreqU1 c1db c1cache).2.1
        (ValidationService.transfer_validation vreqU1 c1db c1cache).2.2 =
      (.error (.http 404 "No pending or in progress transfer found for this unit"),
        (ValidationService.transfer_validation vreqU1 c1db c1cache).2.1,
        (ValidationService.transfer_validation vreqU1 c1db c1cache).2.2) :=
  ⟨c4_confirm_theorem.1 vreqU1 c1db [] pendingT1 (by decide) (by decide) (by decide),
   c4_confirm_theorem.2 vreqU1 c1db
     (ValidationService.transfer_validation vreqU1 c1db c1cache).2.1
     c1cache
     (ValidationService.transfer_validation vreqU1 c1db c1cache).2.2
     { pendingT1 with status := "completed" } (by decide)⟩

/-! ## Claim C7 -/

/-- C7: Confirm deletes the staged cache entry exactly once, on successful
completion only, and every failing run leaves the database (hence the
Transfer status) and the cache exactly as they were — the rollback of the
enclosing transaction undoes the session writes, and the `redis.delete` is
the final statement of the block, so no error path reaches it. -/
theorem c7_confirm_theorem (p : ValidationRequest) (db : DBState) (c : Cache) :
    (∀ t db2 c2, ValidationService.transfer_validation p db c = (.ok t, db2, c2) →
      c2 = cacheDelete c (ownership_transfer_cache_key t.unit_id) ∧
      cacheGet c2 (ownership_transfer_cache_key t.unit_id) = none) ∧
    (∀ e, (ValidationService.transfer_validation p db c).1 = .error e →
      ValidationService.transfer_validation p db c = (.error e, db, c)) := by
  constructor
  · intro t db2 c2 h
    unfold ValidationService.transfer_validation at h
    cases hr : ValidationService.transfer_validation_raw p db c with
    | error e => rw [hr] at h; simp at h
    | ok x =>
      obtain ⟨x1, x2, x3⟩ := x
      rw [hr] at h
      simp only [Prod.mk.injEq, Except.ok.injEq] at h
      obtain ⟨ht, hdb2, hc2⟩ := h
      have hr2 : ValidationService.transfer_validation_raw p db c = .ok (db2, c2, t) := by
        rw [hr, ht, hdb2, hc2]
      obtain ⟨t0, db1, cv, data, hist2, hscal, hverify, hcv, hdata, hsell,
        hdb2eq, hc2eq, hteq⟩ := transfer_validation_raw_ok hr2
      have hunit : t.unit_id = t0.unit_id := by rw [hteq]
      refine ⟨by rw [hc2eq, hunit], ?_⟩
      rw [hc2eq, hunit]
      exact cacheGet_cacheDelete c (ownership_transfer_cache_key t0.unit_id)
  · intro e h
    unfold ValidationService.transfer_validation at h ⊢
    cases hr : ValidationService.transfer_validation_raw p db c with
    | error e2 =>
      rw [hr] at h
      dsimp only at h
      injection h with h
      subst h
      rfl
    | ok x => rw [hr] at h; simp at h


/-- C7 witness: the theorem applied at a state that fails INSIDE the
ledger-application step; the run returns the uncaught exception with database
and cache both unchanged, so the staged entry is still present. -/
theorem c7_witness :
    ValidationService.transfer_validation vreqU1 c7db c1cache =
      (.error (.exc "MultipleResultsFound"), c7db, c1cache) ∧
    cacheGet c1cache (ownership_transfer_cache_key "U1") = some (.json c1data) :=
  ⟨(c7_confirm_theorem vreqU1 c7db c1cache).2 (.exc "MultipleResultsFound") (by decide),
   by decide⟩

/-! ## Claim C10 -/


/-- C10: a staged seller without a matching current ownership row is silently
skipped: (first conjunct) dropping such a seller from the staged dict does
not change the result of the seller loop at all — the loop prints a warning
and continues; (second conjunct) a concrete Confirm whose staged data lists
ghost seller G completes successfully and applies the staged distribution
only partially — the resulting current intervals are A at 50 and B at 30,
which do not even sum to 100. -/
theorem c10_skip_theorem :
    (∀ (data : CacheRecord) (u : String) (hist : List OwnershipHistoryRow)
        (s : String) (q : ℚ) (rest : List (String × ℚ)),
      ValidationService.sellerRows hist u s = [] →
      ValidationService.apply_sellers_hist data u hist ((s, q) :: rest) =
        ValidationService.apply_sellers_hist data u hist rest) ∧
    ((ValidationService.transfer_validation vreqU1 c1db c10cache).1 =
        .ok { pendingT1 with status := "completed" } ∧
      (currentLedgerRows
          (ValidationService.transfer_validation vreqU1 c1db c10cache).2.1.ownership_history
          "U1").map (fun r => (r.owner_id, r.ownership_percentage)) =
        [("A", 50), ("B", 30)] ∧
      ValidationService.sellerRows c1db.ownership_history "U1" "G" = []) := by
  constructor
  · intro data u hist s q rest h
    unfold ValidationService.apply_sellers_hist
    rw [List.foldlM_cons]
    have hstep : ValidationService.apply_seller_hist data u hist (s, q) = .ok hist := by
      unfold ValidationService.apply_seller_hist
      rw [h]
      rfl
    rw [hstep]
    rfl
  · exact ⟨by decide, by decide, by decide⟩

/-- C10 witness: the skip conjunct applied to the concrete ghost seller G of
the fixture, discharging the no-matching-row hypothesis. -/
theorem c10_witness :
    ValidationService.apply_sellers_hist c10data "U1" [rowA100] [("G", 20)] =
      ValidationService.apply_sellers_hist c10data "U1" [rowA100] [] :=
  c10_skip_theorem.1 c10data "U1" [rowA100] "G" 20 [] (by decide)

/-! ## Lemmas towards the ledger invariant (claim C1) -/


/-- Summing a pointwise addition splits. -/
theorem list_sum_map_add {α : Type} (l : List α) (f g : α → ℚ) :
    (l.map (fun x => f x + g x)).sum = (l.map f).sum + (l.map g).sum := by
  induction l with
  | nil => simp
  | cons a t ih => simp [ih]; ring

/-- An indicator sum over distinct keys collapses to the single hit. -/
theorem sum_indicator_single (a : String) (x : ℚ) :
    ∀ (keys : List String), keys.Nodup → a ∈ keys →
    (keys.map (fun s => if a == s then x else 0)).sum = x := by
  intro keys
  induction keys with
  | nil => intro _ h; cases h
  | cons k t ih =>
    intro hnd hmem
    rw [List.map_cons, List.sum_cons]
    by_cases hak : a = k
    · subst hak
      have hnot : a ∉ t := (List.nodup_cons.1 hnd).1
      have hz : (t.map (fun s => if a == s then x else 0)).sum = 0 := by
        apply List.sum_eq_zero
        intro y hy
        obtain ⟨s, hs, rfl⟩ := List.mem_map.1 hy
        have hne : ¬ ((a == s) = true) := by
          intro hc
          exact hnot (beq_iff_eq.1 hc ▸ hs)
        rw [if_neg hne]
      rw [if_pos (beq_self_eq_true a), hz, add_zero]
    · have hmem2 : a ∈ t := by
        cases List.mem_cons.1 hmem with
        | inl h => exact absurd h hak
        | inr h => exact h
      have hne : ¬ ((a == k) = true) := by simpa using hak
      rw [if_neg hne, ih (List.nodup_cons.1 hnd).2 hmem2, zero_add]

/-- Replacing the unique row with a given primary key leaves every filter
untouched when neither the old nor the new row matches the filter. -/
theorem filter_replace_eq (Q : OwnershipHistoryRow → Bool)
    (g : OwnershipHistoryRow → OwnershipHistoryRow) (r0 : OwnershipHistoryRow)
    (hQ : Q r0 = false) (hQg : Q (g r0) = false) :
    ∀ hist : List OwnershipHistoryRow, idsNodup hist → r0 ∈ hist →
    (hist.map (fun r => if r.history_id == r0.history_id then g r else r)).filter Q =
      hist.filter Q := by
  intro hist
  induction hist with
  | nil => intro _ h; cases h
  | cons r t ih =>
    intro hnd hmem
    have hnd2 : idsNodup t := (List.nodup_cons.1 hnd).2
    rw [List.map_cons]
    by_cases hr : r0 = r
    · subst hr
      have hids : ∀ x ∈ t, (x.history_id == r0.history_id) = false := by
        intro x hx
        apply beq_eq_false_iff_ne.2
        intro hc
        have hmm : x.history_id ∈ t.map (·.history_id) :=
          List.mem_map_of_mem (·.history_id) hx
        rw [hc] at hmm
        exact (List.nodup_cons.1 hnd).1 hmm
      have ht : t.map (fun r => if r.history_id == r0.history_id then g r else r) = t := by
        conv_rhs => rw [← List.map_id t]
        apply List.map_congr_left
        intro x hx
        simp [hids x hx]
      rw [ht]
      rw [if_pos (beq_self_eq_true r0.history_id)]
      rw [List.filter_cons, List.filter_cons, hQ, hQg]
      simp
    · have hmem2 : r0 ∈ t := by
        cases List.mem_cons.1 hmem with
        | inl h => exact absurd h hr
        | inr h => exact h
      have hrid : (r.history_id == r0.history_id) = false := by
        apply beq_eq_false_iff_ne.2
        intro hc
        have hmm : r0.history_id ∈ t.map (·.history_id) :=
          List.mem_map_of_mem (·.history_id) hmem2
        rw [← hc] at hmm
        exact (List.nodup_cons.1 hnd).1 hmm
      rw [hrid]
      simp only [Bool.false_eq_true, if_false]
      rw [List.filter_cons, List.filter_cons]
      by_cases hQr : Q r
      · simp only [hQr, if_true]
        rw [ih hnd2 hmem2]
      · simp only [hQr, Bool.false_eq_true, if_false]
        exact ih hnd2 hmem2

/-- Effect of replacing the unique row with a given primary key on a
filtered percentage sum. -/
theorem sum_filter_replace (Q : OwnershipHistoryRow → Bool)
    (g : OwnershipHistoryRow → OwnershipHistoryRow) (r0 : OwnershipHistoryRow) :
    ∀ hist : List OwnershipHistoryRow, idsNodup hist → r0 ∈ hist →
    (((hist.map (fun r => if r.history_id == r0.history_id then g r else r)).filter Q).map
        (·.ownership_percentage)).sum =
      ((hist.filter Q).map (·.ownership_percentage)).sum -
        (if Q r0 then r0.ownership_percentage else 0) +
        (if Q (g r0) then (g r0).ownership_percentage else 0) := by
  intro hist
  induction hist with
  | nil => intro _ h; cases h
  | cons r t ih =>
    intro hnd hmem
    have hnd2 : idsNodup t := (List.nodup_cons.1 hnd).2
    rw [List.map_cons]
    by_cases hr : r0 = r
    · subst hr
      have hids : ∀ x ∈ t, (x.history_id == r0.history_id) = false := by
        intro x hx
        apply beq_eq_false_iff_ne.2
        intro hc
        have hmm : x.history_id ∈ t.map (·.history_id) :=
          List.mem_map_of_mem (·.history_id) hx
        rw [hc] at hmm
        exact (List.nodup_cons.1 hnd).1 hmm
      have ht : t.map (fun r => if r.history_id == r0.history_id then g r else r) = t := by
        conv_rhs => rw [← List.map_id t]
        apply List.map_congr_left
        intro x hx
        simp [hids x hx]
      rw [ht]
      rw [if_pos (beq_self_eq_true r0.history_id)]
      rw [List.filter_cons, List.filter_cons]
      by_cases hQ : Q r0 <;> by_cases hQg : Q (g r0) <;>
        simp [hQ, hQg] <;> ring
    · have hmem2 : r0 ∈ t := by
        cases List.mem_cons.1 hmem with
        | inl h => exact absurd h hr
        | inr h => exact h
      have hrid : (r.history_id == r0.history_id) = false := by
        apply beq_eq_false_iff_ne.2
        intro hc
        have hmm : r0.history_id ∈ t.map (·.history_id) :=
          List.mem_map_of_mem (·.history_id) hmem2
        rw [← hc] at hmm
        exact (List.nodup_cons.1 hnd).1 hmm
      rw [hrid]
      simp only [Bool.false_eq_true, if_false]
      rw [List.filter_cons, List.filter_cons]
      by_cases hQr : Q r
      · simp only [hQr, if_true]
        rw [List.map_cons, List.sum_cons, List.map_cons, List.sum_cons, ih hnd2 hmem2]
        ring
      · simp only [hQr, Bool.false_eq_true, if_false]
        exact ih hnd2 hmem2

/-- One seller-loop step on the unique current row of a seller: the loop
succeeds, the unit's current sum loses the old share and gains the positive
part of the staged share, and nothing else changes. -/
theorem apply_seller_ok (data : CacheRecord) (u td : String)
    (htd : data.transfer_date = some td)
    (hist : List OwnershipHistoryRow) (s : String) (q : ℚ) (r0 : OwnershipHistoryRow)
    (hrow : ValidationService.sellerRows hist u s = [r0])
    (hnd : idsNodup hist) (hco : coherent hist) :
    ∃ hist1, ValidationService.apply_seller_hist data u hist (s, q) = .ok hist1 ∧
      sumCur hist1 u = sumCur hist u - r0.ownership_percentage +
        (if q > 0 then q else 0) ∧
      (∀ s2, s2 ≠ s → ValidationService.sellerRows hist1 u s2 =
        ValidationService.sellerRows hist u s2) ∧
      (∀ v, v ≠ u → currentLedgerRows hist1 v = currentLedgerRows hist v) ∧
      idsNodup hist1 ∧ coherent hist1 := by
  have hr0' : r0 ∈ ValidationService.sellerRows hist u s := by
    rw [hrow]; exact List.mem_cons_self _ _
  have hr0mem : r0 ∈ hist := (List.mem_filter.1 hr0').1
  have hr0pred := (List.mem_filter.1 hr0').2
  have hps : (r0.unit_id = u ∧ r0.owner_id = s) ∧ r0.is_current_owner = true := by
    simpa [ValidationService.sellerRowPred] using hr0pred
  have hunit : r0.unit_id = u := hps.1.1
  have howner : r0.owner_id = s := hps.1.2
  have hcur : r0.is_current_owner = true := hps.2
  have hend : r0.ownership_end_date = none := (hco r0 hr0mem).1 hcur
  by_cases hq : q > 0
  · refine ⟨hist.map (fun r => if r.history_id == r0.history_id then
      { r with ownership_percentage := q,
               transfer_reason := some data.legal_reason } else r), ?_, ?_, ?_, ?_, ?_, ?_⟩
    · unfold ValidationService.apply_seller_hist
      rw [hrow]
      show (if q > 0 then _ else _ : Except TransferError _) = _
      rw [if_pos hq]
      rfl
    · unfold sumCur currentLedgerRows
      rw [sum_filter_replace _ _ r0 hist hnd hr0mem]
      simp [hunit, hend, hq]
    · intro s2 hs2
      unfold ValidationService.sellerRows
      apply filter_replace_eq _ _ r0 ?_ ?_ hist hnd hr0mem
      · simp [ValidationService.sellerRowPred, howner]
        intro _ hc
        exact absurd hc.symm hs2
      · simp [ValidationService.sellerRowPred, howner]
        intro _ hc
        exact absurd hc.symm hs2
    · intro v hv
      unfold currentLedgerRows
      apply filter_replace_eq _ _ r0 ?_ ?_ hist hnd hr0mem
      · simp [hunit]
        intro hc
        exact absurd hc.symm hv
      · simp [hunit]
        intro hc
        exact absurd hc.symm hv
    · unfold idsNodup
      rw [List.map_map]
      have hfe : ((fun x => x.history_id) ∘ fun r =>
          if r.history_id == r0.history_id then
            { r with ownership_percentage := q,
                     transfer_reason := some data.legal_reason } else r) =
          fun r : OwnershipHistoryRow => r.history_id := by
        funext r
        by_cases h : r.history_id == r0.history_id <;> simp [h, Function.comp]
      rw [hfe]
      exact hnd
    · intro r hr
      obtain ⟨x, hx, rfl⟩ := List.mem_map.1 hr
      by_cases h : x.history_id == r0.history_id
      · simp only [h, if_true]
        exact hco x hx
      · simp only [h, Bool.false_eq_true, if_false]
        exact hco x hx
  · refine ⟨hist.map (fun r => if r.history_id == r0.history_id then
      { r with is_current_owner := false,
               ownership_end_date := some td,
               transfer_reason := some "Sold the property" } else r), ?_, ?_, ?_, ?_, ?_, ?_⟩
    · unfold ValidationService.apply_seller_hist
      rw [hrow]
      show (if q > 0 then _ else _ : Except TransferError _) = _
      rw [if_neg hq]
      show pyDictGetStr data.transfer_date >>= _ = _
      rw [htd]
      rfl
    · unfold sumCur currentLedgerRows
      rw [sum_filter_replace _ _ r0 hist hnd hr0mem]
      simp [hunit, hend, hq]
    · intro s2 hs2
      unfold ValidationService.sellerRows
      apply filter_replace_eq _ _ r0 ?_ ?_ hist hnd hr0mem
      · simp [ValidationService.sellerRowPred, howner]
        intro _ hc
        exact absurd hc.symm hs2
      · simp [ValidationService.sellerRowPred]
    · intro v hv
      unfold currentLedgerRows
      apply filter_replace_eq _ _ r0 ?_ ?_ hist hnd hr0mem
      · simp [hunit]
        intro hc
        exact absurd hc.symm hv
      · simp
    · unfold idsNodup
      rw [List.map_map]
      have hfe : ((fun x => x.history_id) ∘ fun r =>
          if r.history_id == r0.history_id then
            { r with is_current_owner := false,
                     ownership_end_date := some td,
                     transfer_reason := some "Sold the property" } else r) =
          fun r : OwnershipHistoryRow => r.history_id := by
        funext r
        by_cases h : r.history_id == r0.history_id <;> simp [h, Function.comp]
      rw [hfe]
      exact hnd
    · intro r hr
      obtain ⟨x, hx, rfl⟩ := List.mem_map.1 hr
      by_cases h : x.history_id == r0.history_id
      · simp only [h, if_true]
        constructor
        · intro hc; cases hc
        · intro hc; cases hc
      · simp only [h, Bool.false_eq_true, if_false]
        exact hco x hx

/-- The full seller loop under a well-formed staged dict: it succeeds, the
unit's current sum ends at the positive staged shares, other units are
untouched. -/
theorem apply_sellers_ok (data : CacheRecord) (u td : String)
    (htd : data.transfer_date = some td) :
    ∀ (sellers : List (String × ℚ)) (hist : List OwnershipHistoryRow),
    (sellers.map Prod.fst).Nodup →
    (∀ sp ∈ sellers, ∃ r, ValidationService.sellerRows hist u sp.1 = [r]) →
    idsNodup hist → coherent hist →
    ∃ hist2, ValidationService.apply_sellers_hist data u hist sellers = .ok hist2 ∧
      sumCur hist2 u = sumCur hist u
        - (sellers.map (fun sp => sellerPct hist u sp.1)).sum
        + ((sellers.filter (fun sp => sp.2 > 0)).map Prod.snd).sum ∧
      (∀ v, v ≠ u → currentLedgerRows hist2 v = currentLedgerRows hist v) := by
  intro sellers
  induction sellers with
  | nil =>
    intro hist _ _ _ _
    exact ⟨hist, rfl, by simp, fun v _ => rfl⟩
  | cons sp rest ih =>
    obtain ⟨s, q⟩ := sp
    intro hist hkeys hrows hnd hco
    obtain ⟨r0, hrow⟩ := hrows (s, q) (List.mem_cons_self _ _)
    obtain ⟨hist1, heq1, hsum1, hsell1, hcur1, hnd1, hco1⟩ :=
      apply_seller_ok data u td htd hist s q r0 hrow hnd hco
    have hsneq : ∀ sp2 ∈ rest, sp2.1 ≠ s := by
      intro sp2 hsp2 hc
      have : s ∈ rest.map Prod.fst := hc ▸ List.mem_map_of_mem Prod.fst hsp2
      exact (List.nodup_cons.1 hkeys).1 this
    have hrows1 : ∀ sp2 ∈ rest, ∃ r,
        ValidationService.sellerRows hist1 u sp2.1 = [r] := by
      intro sp2 hsp2
      obtain ⟨r, hr⟩ := hrows sp2 (List.mem_cons_of_mem _ hsp2)
      exact ⟨r, (hsell1 sp2.1 (hsneq sp2 hsp2)) ▸ hr⟩
    obtain ⟨hist2, heq2, hsum2, hcur2⟩ :=
      ih hist1 (List.nodup_cons.1 hkeys).2 hrows1 hnd1 hco1
    refine ⟨hist2, ?_, ?_, ?_⟩
    · unfold ValidationService.apply_sellers_hist
      rw [List.foldlM_cons, heq1]
      exact heq2
    · have hpcts : rest.map (fun sp2 => sellerPct hist1 u sp2.1) =
          rest.map (fun sp2 => sellerPct hist u sp2.1) := by
        apply List.map_congr_left
        intro sp2 hsp2
        unfold sellerPct
        rw [hsell1 sp2.1 (hsneq sp2 hsp2)]
      have hhead : sellerPct hist u s = r0.ownership_percentage := by
        unfold sellerPct
        rw [hrow]
        simp
      rw [hsum2, hpcts, hsum1]
      rw [List.map_cons, List.sum_cons, hhead, List.filter_cons]
      by_cases hq : q > 0
      · rw [if_pos hq, if_pos (show (decide ((s, q).2 > 0)) = true by simpa using hq)]
        rw [List.map_cons, List.sum_cons]
        ring
      · rw [if_neg hq, if_neg (show ¬ (decide ((s, q).2 > 0)) = true by simpa using hq)]
        ring
    · intro v hv
      rw [hcur2 v hv, hcur1 v hv]

/-- A coherent unit ledger whose current owners all appear among distinct
keys has its current sum partitioned by the per-owner sums. -/
theorem sum_partition (u : String) (keys : List String) (hknd : keys.Nodup) :
    ∀ hist : List OwnershipHistoryRow, coherent hist →
    (∀ r ∈ currentLedgerRows hist u, r.owner_id ∈ keys) →
    sumCur hist u = (keys.map (fun s => sellerPct hist u s)).sum := by
  intro hist
  induction hist with
  | nil =>
    intro _ _
    unfold sumCur currentLedgerRows
    simp only [List.filter_nil, List.map_nil, List.sum_nil]
    symm
    apply List.sum_eq_zero
    intro x hx
    obtain ⟨s, _, rfl⟩ := List.mem_map.1 hx
    simp [sellerPct, ValidationService.sellerRows]
  | cons r t ih =>
    intro hco hcov
    have hcot : coherent t := fun x hx => hco x (List.mem_cons_of_mem r hx)
    have hsell : ∀ s, sellerPct (r :: t) u s =
        (if ValidationService.sellerRowPred u s r then r.ownership_percentage else 0) +
          sellerPct t u s := by
      intro s
      unfold sellerPct ValidationService.sellerRows
      rw [List.filter_cons]
      by_cases hp : ValidationService.sellerRowPred u s r
      · rw [if_pos hp, if_pos hp, List.map_cons, List.sum_cons]
      · rw [if_neg hp, if_neg hp, zero_add]
    have hsplit : (keys.map (fun s => sellerPct (r :: t) u s)).sum =
        (keys.map (fun s => if ValidationService.sellerRowPred u s r then
          r.ownership_percentage else 0)).sum +
        (keys.map (fun s => sellerPct t u s)).sum := by
      rw [← list_sum_map_add]
      congr 1
      apply List.map_congr_left
      intro s _
      exact hsell s
    rw [hsplit]
    unfold sumCur currentLedgerRows
    rw [List.filter_cons]
    by_cases hpr : (r.unit_id == u && r.ownership_end_date.isNone) = true
    · have hconj : (r.unit_id == u) = true ∧ r.ownership_end_date.isNone = true := by
        rw [← Bool.and_eq_true]
        exact hpr
      have hunit : r.unit_id = u := beq_iff_eq.1 hconj.1
      have hendn : r.ownership_end_date = none := Option.isNone_iff_eq_none.1 hconj.2
      have hcurr : r.is_current_owner = true := (hco r (List.mem_cons_self r t)).2 hendn
      have hmemkeys : r.owner_id ∈ keys := by
        apply hcov
        unfold currentLedgerRows
        rw [List.filter_cons, if_pos hpr]
        exact List.mem_cons_self _ _
      have hind : (keys.map (fun s => if ValidationService.sellerRowPred u s r then
          r.ownership_percentage else 0)).sum = r.ownership_percentage := by
        have hcongr : keys.map (fun s => if ValidationService.sellerRowPred u s r then
            r.ownership_percentage else 0) =
            keys.map (fun s => if r.owner_id == s then r.ownership_percentage else 0) := by
          apply List.map_congr_left
          intro s _
          simp [ValidationService.sellerRowPred, hunit, hcurr]
        rw [hcongr]
        exact sum_indicator_single r.owner_id r.ownership_percentage keys hknd hmemkeys
      rw [if_pos hpr, hind, List.map_cons, List.sum_cons]
      have hcovt : ∀ x ∈ currentLedgerRows t u, x.owner_id ∈ keys := by
        intro x hx
        apply hcov
        unfold currentLedgerRows at hx ⊢
        rw [List.filter_cons, if_pos hpr]
        exact List.mem_cons_of_mem r hx
      have ihh := ih hcot hcovt
      unfold sumCur currentLedgerRows at ihh
      rw [ihh]
    · have hzero : (keys.map (fun s => if ValidationService.sellerRowPred u s r then
          r.ownership_percentage else 0)).sum = 0 := by
        apply List.sum_eq_zero
        intro x hx
        obtain ⟨s, _, rfl⟩ := List.mem_map.1 hx
        have hpred : ValidationService.sellerRowPred u s r = false := by
          unfold ValidationService.sellerRowPred
          rcases Bool.and_eq_false_iff.1 (Bool.eq_false_iff.2 hpr) with h | h
          · rw [h]; simp
          · have hic : r.is_current_owner = false := by
              cases hcic : r.is_current_owner with
              | false => rfl
              | true =>
                have := (hco r (List.mem_cons_self r t)).1 hcic
                rw [this] at h
                simp at h
            rw [hic]
            simp
        rw [hpred]
        simp
      rw [if_neg hpr, hzero, zero_add]
      have hcovt : ∀ x ∈ currentLedgerRows t u, x.owner_id ∈ keys := by
        intro x hx
        apply hcov
        unfold currentLedgerRows at hx ⊢
        rw [List.filter_cons, if_neg hpr]
        exact hx
      have ihh := ih hcot hcovt
      unfold sumCur currentLedgerRows at ihh
      rw [ihh]

/-- Appending one fresh row per buyer adds the staged buyer percentages to
the current sum of the unit and leaves other units untouched. -/
theorem fold_append_rows (u : String)
    (mk : List OwnershipHistoryRow → (String × ℚ) → OwnershipHistoryRow)
    (hu : ∀ h bp, (mk h bp).unit_id = u)
    (he : ∀ h bp, (mk h bp).ownership_end_date = none)
    (hp : ∀ h bp, (mk h bp).ownership_percentage = bp.2) :
    ∀ (bs : List (String × ℚ)) (hist : List OwnershipHistoryRow),
    sumCur (bs.foldl (fun h bp => h ++ [mk h bp]) hist) u =
      sumCur hist u + (bs.map Prod.snd).sum ∧
    (∀ v, v ≠ u → currentLedgerRows (bs.foldl (fun h bp => h ++ [mk h bp]) hist) v =
      currentLedgerRows hist v) := by
  intro bs
  induction bs with
  | nil => intro hist; simp
  | cons b t ih =>
    intro hist
    rw [List.foldl_cons]
    obtain ⟨ihs, ihf⟩ := ih (hist ++ [mk hist b])
    constructor
    · rw [ihs]
      have : sumCur (hist ++ [mk hist b]) u = sumCur hist u + b.2 := by
        unfold sumCur currentLedgerRows
        rw [List.filter_append, List.map_append, List.sum_append]
        have hpred : ((mk hist b).unit_id == u && (mk hist b).ownership_end_date.isNone) = true := by
          simp [hu hist b, he hist b]
        simp [List.filter_cons, hpred, hp hist b]
      rw [this, List.map_cons, List.sum_cons]
      ring
    · intro v hv
      rw [ihf v hv]
      unfold currentLedgerRows
      rw [List.filter_append]
      have hpred : ((mk hist b).unit_id == v && (mk hist b).ownership_end_date.isNone) = false := by
        have : (mk hist b).unit_id ≠ v := by rw [hu hist b]; exact fun hc => hv hc.symm
        simp [this]
      simp [List.filter_cons, hpred]

/-- The buyer loop adds exactly the staged buyer percentages to the unit and
leaves other units untouched. -/
theorem apply_buyers_props (data : CacheRecord) (u : String)
    (hist : List OwnershipHistoryRow) :
    sumCur (ValidationService.apply_buyers_hist data u hist) u =
      sumCur hist u + (data.buyers.map Prod.snd).sum ∧
    (∀ v, v ≠ u → currentLedgerRows (ValidationService.apply_buyers_hist data u hist) v =
      currentLedgerRows hist v) := by
  unfold ValidationService.apply_buyers_hist
  exact fold_append_rows u _ (fun h bp => rfl) (fun h bp => rfl) (fun h bp => rfl)
    data.buyers hist

/-- Under nonnegative staged shares, the positive ones already carry the
whole sum: the others are exactly zero. -/
theorem sum_filter_pos_of_nonneg :
    ∀ (l : List (String × ℚ)), (∀ sp ∈ l, 0 ≤ sp.2) →
    ((l.filter (fun sp => sp.2 > 0)).map Prod.snd).sum = (l.map Prod.snd).sum := by
  intro l
  induction l with
  | nil => intro _; rfl
  | cons b t ih =>
    intro hn
    rw [List.filter_cons]
    by_cases hq : b.2 > 0
    · rw [if_pos (by simpa using hq), List.map_cons, List.sum_cons, List.map_cons,
        List.sum_cons, ih (fun x hx => hn x (List.mem_cons_of_mem b hx))]
    · have hz : b.2 = 0 := le_antisymm (not_lt.1 hq) (hn b (List.mem_cons_self b t))
      rw [if_neg (by simpa using hq), List.map_cons, List.sum_cons, hz,
        ih (fun x hx => hn x (List.mem_cons_of_mem b hx)), zero_add]

/-- C1 amended: the per-unit invariant (current percentages sum to 100
within 1e-9, or no current owners) is preserved by every successful Confirm
PROVIDED the staged cache entry applied is well-formed with respect to the
ledger: its seller keys are distinct, each names exactly one current row of
the unit, every current owner of the unit is among them, the staged seller
remainders are nonnegative, and remainders plus buyer percentages sum to 100
within 1e-9.  Confirm itself revalidates none of this (see the
counterexample), so the unguarded claim fails. -/
theorem c1_invariant_amended :
    ∀ (p : ValidationRequest) (db : DBState) (c : Cache) (d : CacheRecord) (td : String)
      (t : OwnershipTransferRow) (db2 : DBState) (c2 : Cache),
    coherent db.ownership_history →
    idsNodup db.ownership_history →
    cacheGet c (ownership_transfer_cache_key p.unit_id) = some (.json d) →
    d.transfer_date = some td →
    (d.sellers.map Prod.fst).Nodup →
    (∀ sp ∈ d.sellers, ∃ r,
      ValidationService.sellerRows db.ownership_history p.unit_id sp.1 = [r]) →
    (∀ r ∈ currentLedgerRows db.ownership_history p.unit_id,
      r.owner_id ∈ d.sellers.map Prod.fst) →
    (∀ sp ∈ d.sellers, 0 ≤ sp.2) →
    pyAbs ((d.sellers.map Prod.snd).sum + (d.buyers.map Prod.snd).sum - 100) ≤
      perc_tolerance →
    (∀ v, unitInvariant db.ownership_history v) →
    ValidationService.transfer_validation p db c = (.ok t, db2, c2) →
    ∀ v, unitInvariant db2.ownership_history v := by
  intro p db c d td t db2 c2 hco hnd hcache htd hkeys hrows hcov hnn hsum hpre hsucc
  unfold ValidationService.transfer_validation at hsucc
  cases hr : ValidationService.transfer_validation_raw p db c with
  | error e => rw [hr] at hsucc; simp at hsucc
  | ok x =>
    obtain ⟨x1, x2, x3⟩ := x
    rw [hr] at hsucc
    simp only [Prod.mk.injEq, Except.ok.injEq] at hsucc
    obtain ⟨ht, hdb2, hc2⟩ := hsucc
    have hr2 : ValidationService.transfer_validation_raw p db c = .ok (db2, c2, t) := by
      rw [hr, ht, hdb2, hc2]
    obtain ⟨t0, db1, cv, data, hist2, hscal, hverify, hcv, hdata, hsell,
      hdb2eq, hc2eq, hteq⟩ := transfer_validation_raw_ok hr2
    have hl : pendingOrInProgress db p.unit_id = [t0] := scalar_ok_some hscal
    have ht0mem : t0 ∈ pendingOrInProgress db p.unit_id := by
      rw [hl]; exact List.mem_cons_self _ _
    have ht0u : t0.unit_id = p.unit_id := by
      have hpp := (List.mem_filter.1 ht0mem).2
      have : (t0.unit_id == p.unit_id) = true := by
        rcases Bool.and_eq_true_iff.1 hpp with ⟨h1, _⟩
        exact h1
      exact beq_iff_eq.1 this
    rw [ht0u] at hcv hsell hdb2eq
    rw [hcache] at hcv
    injection hcv with hcv
    rw [← hcv] at hdata
    have hdd : data = d := by
      have : json_loads (CacheValue.json d) = .ok d := rfl
      rw [this] at hdata
      injection hdata with h
      exact h.symm
    subst hdd
    have hhist1 : db1.ownership_history = db.ownership_history :=
      (verify_documents_tables _ _ hverify).2.2.1
    rw [hhist1] at hsell
    obtain ⟨hist2', heq', hsum2, hframe⟩ :=
      apply_sellers_ok data p.unit_id td htd data.sellers db.ownership_history
        hkeys hrows hnd hco
    have hh : hist2' = hist2 := by
      rw [heq'] at hsell
      injection hsell
    subst hh
    have hpart : sumCur db.ownership_history p.unit_id =
        (data.sellers.map (fun sp => sellerPct db.ownership_history p.unit_id sp.1)).sum := by
      have := sum_partition p.unit_id (data.sellers.map Prod.fst) hkeys
        db.ownership_history hco hcov
      rw [this, List.map_map]
      rfl
    have hsum2' : sumCur hist2' p.unit_id = (data.sellers.map Prod.snd).sum := by
      rw [hsum2, ← hpart]
      have hpos := sum_filter_pos_of_nonneg data.sellers hnn
      rw [hpos]
      ring
    obtain ⟨hbsum, hbframe⟩ := apply_buyers_props data p.unit_id hist2'
    have hdb2hist : db2.ownership_history =
        ValidationService.apply_buyers_hist data p.unit_id hist2' := by
      rw [hdb2eq]
      rfl
    intro v
    by_cases hv : v = p.unit_id
    · subst hv
      left
      rw [hdb2hist, hbsum, hsum2']
      exact hsum
    · have hfr : currentLedgerRows db2.ownership_history v =
          currentLedgerRows db.ownership_history v := by
        rw [hdb2hist, hbframe v hv, hframe v hv]
      have hpv := hpre v
      unfold unitInvariant at hpv ⊢
      unfold sumCur at hpv ⊢
      rw [hfr]
      exact hpv

/-- C1 counterexample: `c1db` satisfies the invariant (A holds 100 percent of
U1), yet a successful Confirm applying the staged entry `{A: 50}` with no
buyers — which Confirm never revalidates — leaves U1 with a single current
interval of 50 percent, violating the invariant.  With the conflict-check
bug no successful Initiate exists to feed Confirm, so nothing ties the cache
content to the computed distribution the claim assumes. -/
theorem c1_counterexample :
    unitInvariant c1db.ownership_history "U1" ∧
    (ValidationService.transfer_validation vreqU1 c1db c1cache).1 =
      .ok { pendingT1 with status := "completed" } ∧
    ¬ unitInvariant
      (ValidationService.transfer_validation vreqU1 c1db c1cache).2.1.ownership_history
      "U1" := by
  refine ⟨?_, by decide, ?_⟩
  · left
    have h : (currentLedgerRows c1db.ownership_history "U1").map
        (·.ownership_percentage) = [100] := by decide
    unfold sumCur
    rw [h]
    norm_num [pyAbs, perc_tolerance]
  · intro hinv
    have h : (currentLedgerRows
        (ValidationService.transfer_validation vreqU1 c1db c1cache).2.1.ownership_history
        "U1").map (·.ownership_percentage) = [50] := by decide
    cases hinv with
    | inl hs =>
      unfold sumCur at hs
      rw [h] at hs
      norm_num [pyAbs, perc_tolerance] at hs
    | inr hn =>
      rw [hn] at h
      simp at h


/-- C1 witness: the amended theorem applied to the concrete well-formed
staged entry, every hypothesis discharged, conclusion read off at U1. -/
theorem c1_witness :
    unitInvariant
      (ValidationService.transfer_validation vreqU1 c1db c1wfcache).2.1.ownership_history
      "U1" := by
  have hpre : ∀ v, unitInvariant c1db.ownership_history v := by
    intro v
    by_cases hv : v = "U1"
    · subst hv
      left
      have h : (currentLedgerRows c1db.ownership_history "U1").map
          (·.ownership_percentage) = [100] := by decide
      unfold sumCur
      rw [h]
      norm_num [pyAbs, perc_tolerance]
    · right
      unfold currentLedgerRows
      apply List.filter_eq_nil_iff.2
      intro r hr
      have hra : r = rowA100 := by
        simpa [c1db] using hr
      subst hra
      simp [rowA100]
      intro hc
      exact absurd hc.symm hv
  have hrows : ∀ sp ∈ c1wfdata.sellers, ∃ r,
      ValidationService.sellerRows c1db.ownership_history vreqU1.unit_id sp.1 = [r] := by
    intro sp hsp
    have hsp' : sp = ("A", 60) := by simpa [c1wfdata, c1data] using hsp
    subst hsp'
    exact ⟨rowA100, by decide⟩
  exact c1_invariant_amended vreqU1 c1db c1wfcache c1wfdata "2026-01-01"
    { pendingT1 with status := "completed" }
    (ValidationService.transfer_validation vreqU1 c1db c1wfcache).2.1
    (ValidationService.transfer_validation vreqU1 c1db c1wfcache).2.2
    (by unfold coherent; decide) (by unfold idsNodup; decide)
    (by decide) (by decide) (by decide)
    hrows (by decide) (by decide) (by with_unfolding_all decide) hpre
    (by decide) "U1"
